import Mathlib

/-!
Shallow embedding of the roadrunner static-pool core: the pool dispatcher
(pool/static_pool.go), the worker watcher (worker_watcher/worker_watcher.go)
and the observable worker-state model (worker/interface.go).

Side effects performed by the Go code (state mutation, process Stop/Kill,
container pushes, event pushes) are recorded as explicit effect traces, and
the mutable watcher fields (cohort slice, numWorkers target) are threaded as
explicit state.  Blocking operations (container Pop, the 500 ms retry ticker,
the 100 ms destroy poll) are modelled by finite scripts of the values the
blocking call yields, and unbounded loops take fuel.
-/

namespace RoadRunner

/-- Worker status values, one constructor per worker.State constant. -/
inductive WState
  | inactive
  | ready
  | working
  | invalid
  | stopping
  | stopped
  | killing
  | destroyed
  | errored
  | maxJobsReached
deriving DecidableEq, Repr

/-- A worker handle: its pid plus the observable state fields the pool
reads (status value and number of executions). -/
structure Worker where
  pid : Int
  state : WState
  numExecs : Nat
deriving DecidableEq, Repr

/-- Event kinds pushed to the events handler by the pool and the watcher. -/
inductive EventKind
  | workerError
  | execTTL
  | workerDestruct
  | noFreeWorkers
  | workerConstruct
  | workerProcessExit
deriving DecidableEq, Repr

/-- Observable side effects of the pool and the watcher, in program order:
state writes, process Stop/Kill, Release calls and container pushes,
container destruction, wait-task registration, cohort append, the atomic
decrement of the numWorkers target, allocator invocations, worker Exec
invocations, and event pushes. -/
inductive Eff
  | setState (pid : Int) (s : WState)
  | stopW (pid : Int)
  | killW (pid : Int)
  | releaseCall (pid : Int)
  | pushContainer (pid : Int)
  | containerDestroy
  | addToWatch (pid : Int)
  | appendCohort (pid : Int)
  | decTarget
  | allocNew (pid : Int)
  | workerExec (pid : Int)
  | event (e : EventKind)
deriving DecidableEq, Repr

/-- The error kinds the pool's error encoder distinguishes. -/
inductive ErrKind
  | execTTL
  | softJob
  | network
  | other
deriving DecidableEq, Repr

/-- A request/response payload: opaque context bytes and body bytes. -/
structure Payload where
  context : List Nat
  body : List Nat
deriving DecidableEq, Repr

/-- Pool configuration fields the embedded code reads. -/
structure PoolCfg where
  debug : Bool
  numWorkers : Nat
  maxJobs : Nat
deriving DecidableEq, Repr

/-- worker_watcher.go Release: a worker in the Ready state is pushed into
the container; a worker in any other state is killed. -/
def wwRelease (w : Worker) : List Eff :=
  .releaseCall w.pid ::
    (if w.state = .ready then [.pushContainer w.pid] else [.killW w.pid])

/-- Result of the pool's error encoder: the (payload, error) pair it
returns, the worker after its state writes, and the effect trace. -/
structure EncOut where
  reply : Option Payload
  errReturned : Bool
  worker : Worker
  effs : List Eff
deriving DecidableEq, Repr

/-- static_pool.go defaultErrEncoder: classifies the Exec error and decides
the remediation, per branch of the switch on the error kind. -/
def defaultErrEncoder (cfg : PoolCfg) (k : ErrKind) (w : Worker) : EncOut :=
  match k with
  | .execTTL =>
      { reply := none, errReturned := true,
        worker := { w with state := .invalid },
        effs := [.event .execTTL, .setState w.pid .invalid] }
  | .softJob =>
      if cfg.maxJobs ≠ 0 ∧ cfg.maxJobs ≤ w.numExecs then
        { reply := none, errReturned := true,
          worker := { w with state := .invalid },
          effs := [.event .workerError, .setState w.pid .invalid, .stopW w.pid] }
      else
        { reply := none, errReturned := true,
          worker := w,
          effs := .event .workerError :: wwRelease w }
  | .network =>
      { reply := none, errReturned := true,
        worker := { w with state := .invalid },
        effs := [.setState w.pid .invalid, .event .workerError, .killW w.pid] }
  | .other =>
      { reply := none, errReturned := true,
        worker := { w with state := .invalid },
        effs := [.setState w.pid .invalid, .event .workerDestruct, .stopW w.pid] }

/-- static_pool.go StopRequest, as its UTF-8 bytes: the 13-byte sentinel
context string (open brace, quote, stop, quote, colon, true, close brace). -/
def stopRequest : List Nat :=
  [123, 34, 115, 116, 111, 112, 34, 58, 116, 114, 117, 101, 125]

/-- Modelled from the spec: the sync worker's observable transition on a
successful Exec (the worker-handle implementation is not under src, only
its interface).  Spec 4.B: Exec transitions Working back to Ready on
success, and num_execs increments exactly once per successful Exec. -/
def execSuccessStep (w : Worker) : Worker :=
  { w with state := .ready, numExecs := w.numExecs + 1 }

/-- static_pool.go stopWorker: set the worker's state to Invalid, then
Stop it (a Stop failure only pushes an extra error event). -/
def stopWorkerStep (w : Worker) : Worker × List Eff :=
  ({ w with state := .invalid }, [.setState w.pid .invalid, .stopW w.pid])

/-- static_pool.go checkMaxJobs: if the worker's NumExecs has reached
cfg.MaxJobs, set its state to MaxJobsReached and Release it; otherwise
just Release it. -/
def checkMaxJobs (cfg : PoolCfg) (w : Worker) : Worker × List Eff :=
  if cfg.maxJobs ≤ w.numExecs then
    ({ w with state := .maxJobsReached },
      .setState w.pid .maxJobsReached :: wwRelease { w with state := .maxJobsReached })
  else
    (w, wwRelease w)

/-- What a worker's Exec yields for one request: a reply payload, or an
error of one of the encoder's kinds. -/
inductive ExecOutcome
  | reply (rsp : Payload)
  | failure (k : ErrKind)
deriving DecidableEq, Repr

/-- One takeWorker step of the dispatcher, as scripted by the environment:
either a worker is taken (with the outcome its Exec will yield), or the
Take fails (NoFreeWorkers / WatcherStopped at the pool boundary). -/
inductive TakeStep
  | taken (w : Worker) (out : ExecOutcome)
  | takeFail
deriving DecidableEq, Repr

/-- The value StaticPool.Exec returns to the caller. -/
inductive ExecResult
  | ok (rsp : Payload)
  | execErr (k : ErrKind)
  | takeErr
  | allocErr
deriving DecidableEq, Repr

/-- static_pool.go StaticPool.Exec (non-debug path), driven by a script of
takeWorker steps: take a worker, run its Exec; on error hand off to the
error encoder; on the stop sentinel (empty body and context equal to
StopRequest) stop the worker and recurse on the rest of the script; else
release via checkMaxJobs when MaxJobs is non-zero, or directly. -/
def poolExec (cfg : PoolCfg) (p : Payload) : List TakeStep → ExecResult × List Eff
  | [] => (.takeErr, [.event .noFreeWorkers])
  | .takeFail :: _ => (.takeErr, [.event .noFreeWorkers])
  | .taken w out :: rest =>
    match out with
    | .failure k =>
        (.execErr k, .workerExec w.pid :: (defaultErrEncoder cfg k w).effs)
    | .reply rsp =>
        let w1 := execSuccessStep w
        if rsp.body.length = 0 ∧ rsp.context = stopRequest then
          ((poolExec cfg p rest).1,
            .workerExec w.pid :: (stopWorkerStep w1).2 ++ (poolExec cfg p rest).2)
        else if cfg.maxJobs ≠ 0 then
          (.ok rsp, .workerExec w.pid :: (checkMaxJobs cfg w1).2)
        else
          (.ok rsp, .workerExec w.pid :: wwRelease w1)

example :
    poolExec ⟨false, 1, 0⟩ ⟨[], []⟩
        [.taken ⟨3, .ready, 0⟩ (.reply ⟨[7], [1, 2]⟩)]
      = (.ok ⟨[7], [1, 2]⟩,
          [.workerExec 3, .releaseCall 3, .pushContainer 3]) := by
  decide

example :
    (poolExec ⟨false, 1, 0⟩ ⟨[], []⟩
        [.taken ⟨3, .ready, 0⟩ (.reply ⟨stopRequest, []⟩),
         .taken ⟨4, .ready, 0⟩ (.reply ⟨[7], [1]⟩)]).1
      = .ok ⟨[7], [1]⟩ := by
  decide

/-- C1: for every error returned by a worker's Exec, defaultErrEncoder
produces the mapped disposition and returns the error to the caller: ExecTTL
sets the worker Invalid and returns (nil, error) without stopping or killing
it; Network sets Invalid and Kills; SoftJob leaves the worker's state
unchanged and Releases it, unless maxJobs > 0 and numExecs has reached
maxJobs, in which case the worker is set Invalid and Stopped; any other kind
sets Invalid and Stops the worker. -/
theorem errEncoder_dispositions (cfg : PoolCfg) (w : Worker) :
    ((defaultErrEncoder cfg .execTTL w).worker.state = .invalid ∧
      (defaultErrEncoder cfg .execTTL w).reply = none ∧
      (defaultErrEncoder cfg .execTTL w).errReturned = true ∧
      (∀ p, Eff.stopW p ∉ (defaultErrEncoder cfg .execTTL w).effs) ∧
      (∀ p, Eff.killW p ∉ (defaultErrEncoder cfg .execTTL w).effs)) ∧
    ((defaultErrEncoder cfg .network w).worker.state = .invalid ∧
      Eff.killW w.pid ∈ (defaultErrEncoder cfg .network w).effs ∧
      (defaultErrEncoder cfg .network w).reply = none ∧
      (defaultErrEncoder cfg .network w).errReturned = true) ∧
    (¬(cfg.maxJobs ≠ 0 ∧ cfg.maxJobs ≤ w.numExecs) →
      (defaultErrEncoder cfg .softJob w).worker = w ∧
      Eff.releaseCall w.pid ∈ (defaultErrEncoder cfg .softJob w).effs ∧
      Eff.stopW w.pid ∉ (defaultErrEncoder cfg .softJob w).effs ∧
      (defaultErrEncoder cfg .softJob w).errReturned = true) ∧
    ((cfg.maxJobs ≠ 0 ∧ cfg.maxJobs ≤ w.numExecs) →
      (defaultErrEncoder cfg .softJob w).worker.state = .invalid ∧
      Eff.stopW w.pid ∈ (defaultErrEncoder cfg .softJob w).effs ∧
      (defaultErrEncoder cfg .softJob w).errReturned = true) ∧
    ((defaultErrEncoder cfg .other w).worker.state = .invalid ∧
      Eff.stopW w.pid ∈ (defaultErrEncoder cfg .other w).effs ∧
      (defaultErrEncoder cfg .other w).reply = none ∧
      (defaultErrEncoder cfg .other w).errReturned = true) := by
  refine ⟨?_, ?_, ?_, ?_, ?_⟩
  · simp [defaultErrEncoder]
  · simp [defaultErrEncoder]
  · intro h
    by_cases hw : w.state = .ready <;>
      simp [defaultErrEncoder, if_neg h, wwRelease, hw]
  · intro h
    simp [defaultErrEncoder, if_pos h]
  · simp [defaultErrEncoder]

/-- Witness for C1: the two SoftJob hypotheses discharged at concrete
inputs (maxJobs 0 reusable; maxJobs 2 with 5 executions exceeded). -/
theorem errEncoder_dispositions_witness :
    (defaultErrEncoder ⟨false, 1, 0⟩ .softJob ⟨9, .ready, 5⟩).worker
        = ⟨9, .ready, 5⟩ ∧
    (defaultErrEncoder ⟨false, 1, 2⟩ .softJob ⟨9, .ready, 5⟩).worker.state
        = .invalid :=
  ⟨((errEncoder_dispositions ⟨false, 1, 0⟩ ⟨9, .ready, 5⟩).2.2.1 (by decide)).1,
   ((errEncoder_dispositions ⟨false, 1, 2⟩ ⟨9, .ready, 5⟩).2.2.2.1 (by decide)).1⟩

/-- C2: the stop sentinel is exactly 13 bytes; a successful Exec whose
reply has an empty body and context equal to the sentinel stops the worker
(Invalid, then Stop) and retries the same payload on the rest of the
script (a fresh Take), the caller receiving the retried attempt's result;
any other reply is returned to the caller unchanged. -/
theorem poolExec_stop_sentinel (cfg : PoolCfg) (p : Payload) (w : Worker)
    (rsp : Payload) (rest : List TakeStep) :
    stopRequest.length = 13 ∧
    (rsp.body.length = 0 ∧ rsp.context = stopRequest →
      poolExec cfg p (.taken w (.reply rsp) :: rest)
        = ((poolExec cfg p rest).1,
            .workerExec w.pid :: .setState w.pid .invalid :: .stopW w.pid ::
              (poolExec cfg p rest).2)) ∧
    (¬(rsp.body.length = 0 ∧ rsp.context = stopRequest) →
      (poolExec cfg p (.taken w (.reply rsp) :: rest)).1 = .ok rsp) := by
  refine ⟨by decide, ?_, ?_⟩
  · intro h
    simp only [poolExec]
    rw [if_pos h]
    simp [stopWorkerStep, execSuccessStep]
  · intro h
    simp only [poolExec]
    rw [if_neg h]
    by_cases hm : cfg.maxJobs = 0 <;> simp [hm]

/-- Witness for C2: a sentinel reply at pid 3 is retried on the remaining
script, and a non-sentinel reply at pid 5 is returned unchanged. -/
theorem poolExec_stop_sentinel_witness :
    poolExec ⟨false, 1, 0⟩ ⟨[], []⟩
        [.taken ⟨3, .ready, 0⟩ (.reply ⟨stopRequest, []⟩),
         .taken ⟨4, .ready, 0⟩ (.reply ⟨[7], [1]⟩)]
      = ((poolExec ⟨false, 1, 0⟩ ⟨[], []⟩
            [.taken ⟨4, .ready, 0⟩ (.reply ⟨[7], [1]⟩)]).1,
          .workerExec 3 :: .setState 3 .invalid :: .stopW 3 ::
            (poolExec ⟨false, 1, 0⟩ ⟨[], []⟩
              [.taken ⟨4, .ready, 0⟩ (.reply ⟨[7], [1]⟩)]).2) ∧
    (poolExec ⟨false, 1, 0⟩ ⟨[], []⟩
        [.taken ⟨5, .ready, 0⟩ (.reply ⟨[9], [2]⟩)]).1 = .ok ⟨[9], [2]⟩ :=
  ⟨(poolExec_stop_sentinel ⟨false, 1, 0⟩ ⟨[], []⟩ ⟨3, .ready, 0⟩
        ⟨stopRequest, []⟩ [.taken ⟨4, .ready, 0⟩ (.reply ⟨[7], [1]⟩)]).2.1
      (by decide),
   (poolExec_stop_sentinel ⟨false, 1, 0⟩ ⟨[], []⟩ ⟨5, .ready, 0⟩
        ⟨[9], [2]⟩ []).2.2 (by decide)⟩

/-- C3: with maxJobs = k > 0, checkMaxJobs on a worker whose numExecs has
reached k sets its state to MaxJobsReached and Releases it, and the
Release then Kills it (its state is not Ready); below the threshold the
worker is Released back; and a worker is pushed back into the container
only while its numExecs is still below k, so a worker performs at most k
successful Execs before being replaced. -/
theorem checkMaxJobs_rotation (cfg : PoolCfg) (w : Worker) (k : Nat)
    (hk : cfg.maxJobs = k) (hpos : 0 < k) :
    (k ≤ w.numExecs →
      checkMaxJobs cfg w
        = ({ w with state := .maxJobsReached },
            [.setState w.pid .maxJobsReached, .releaseCall w.pid,
              .killW w.pid])) ∧
    (w.numExecs < k →
      checkMaxJobs cfg w = (w, wwRelease w)) ∧
    (∀ q, Eff.pushContainer q ∈ (checkMaxJobs cfg w).2 → w.numExecs < k) := by
  subst hk
  refine ⟨?_, ?_, ?_⟩
  · intro h
    simp [checkMaxJobs, if_pos h, wwRelease]
  · intro h
    simp [checkMaxJobs, Nat.not_le.mpr h]
  · intro q hq
    by_cases h : cfg.maxJobs ≤ w.numExecs
    · simp [checkMaxJobs, if_pos h, wwRelease] at hq
    · exact Nat.not_le.mp h

/-- Witness for C3: with k = 3, a worker at 3 executions is rotated
(MaxJobsReached, Release, Kill) and a worker at 1 execution is released
back; the push-implies-below-threshold conjunct at a concrete effect. -/
theorem checkMaxJobs_rotation_witness :
    checkMaxJobs ⟨false, 1, 3⟩ ⟨2, .ready, 3⟩
      = (⟨2, .maxJobsReached, 3⟩,
          [.setState 2 .maxJobsReached, .releaseCall 2, .killW 2]) ∧
    checkMaxJobs ⟨false, 1, 3⟩ ⟨2, .ready, 1⟩
      = (⟨2, .ready, 1⟩, wwRelease ⟨2, .ready, 1⟩) ∧
    (⟨2, .ready, 1⟩ : Worker).numExecs < 3 :=
  ⟨(checkMaxJobs_rotation ⟨false, 1, 3⟩ ⟨2, .ready, 3⟩ 3 rfl (by decide)).1
      (by decide),
   (checkMaxJobs_rotation ⟨false, 1, 3⟩ ⟨2, .ready, 1⟩ 3 rfl (by decide)).2.1
      (by decide),
   (checkMaxJobs_rotation ⟨false, 1, 3⟩ ⟨2, .ready, 1⟩ 3 rfl (by decide)).2.2
      2 (by decide)⟩

/-- C10: a successful non-sentinel Exec invokes Watcher.Release on the
taken worker exactly once before returning the reply, whether the release
happens inside checkMaxJobs (maxJobs non-zero) or directly. -/
theorem poolExec_release_once (cfg : PoolCfg) (p : Payload) (w : Worker)
    (rsp : Payload) (rest : List TakeStep)
    (h : ¬(rsp.body.length = 0 ∧ rsp.context = stopRequest)) :
    (poolExec cfg p (.taken w (.reply rsp) :: rest)).1 = .ok rsp ∧
    List.count (Eff.releaseCall w.pid)
        (poolExec cfg p (.taken w (.reply rsp) :: rest)).2 = 1 := by
  simp only [poolExec]
  rw [if_neg h]
  by_cases hm : cfg.maxJobs = 0
  · simp [hm, wwRelease, execSuccessStep, List.count_cons]
  · by_cases hq : cfg.maxJobs ≤ w.numExecs + 1
    · simp [hm, checkMaxJobs, execSuccessStep, hq, wwRelease,
        List.count_cons]
    · simp [hm, checkMaxJobs, execSuccessStep, hq, wwRelease,
        List.count_cons]

/-- Witness for C10: a concrete non-sentinel reply released exactly once. -/
theorem poolExec_release_once_witness :
    (poolExec ⟨false, 1, 0⟩ ⟨[], []⟩
        [.taken ⟨6, .ready, 0⟩ (.reply ⟨[4], [1]⟩)]).1 = .ok ⟨[4], [1]⟩ ∧
    List.count (Eff.releaseCall 6)
        (poolExec ⟨false, 1, 0⟩ ⟨[], []⟩
          [.taken ⟨6, .ready, 0⟩ (.reply ⟨[4], [1]⟩)]).2 = 1 :=
  poolExec_release_once ⟨false, 1, 0⟩ ⟨[], []⟩ ⟨6, .ready, 0⟩ ⟨[4], [1]⟩ []
    (by decide)

/-! ### Watcher.Take -/

/-- What one container Pop yields: a worker, the WatcherStopped error, or
a deadline expiry. -/
inductive PopItem
  | popped (w : Worker)
  | stoppedErr
  | timeoutErr
deriving DecidableEq, Repr

/-- Typed errors Take returns at the watcher boundary. -/
inductive TakeErr
  | watcherStopped
  | popTimeout
deriving DecidableEq, Repr

/-- Outcome of Take: a worker, a typed error, or fuel exhaustion of the
modelled loop. -/
inductive TakeOut
  | got (w : Worker)
  | failed (e : TakeErr)
  | fuelOut
deriving DecidableEq, Repr

/-- The wrong states enumerated by the slow-path switch in Take. -/
def badStates : List WState :=
  [.inactive, .destroyed, .errored, .stopped, .invalid, .killing, .stopping]

/-- worker_watcher.go Take, slow-path loop: Pop; on WatcherStopped or
timeout return the typed error; a Ready worker is returned; a Working
worker is pushed back into the container (appended) and skipped; a worker
in one of the enumerated wrong states is killed; any state outside the
switch falls through silently.  The Pop stream is scripted; fuel bounds
the unrolled loop. -/
def takeLoop (fuel : Nat) (items : List PopItem) : TakeOut × List Eff :=
  match fuel with
  | 0 => (.fuelOut, [])
  | fuel + 1 =>
    match items with
    | [] => (.failed .popTimeout, [])
    | .stoppedErr :: _ => (.failed .watcherStopped, [])
    | .timeoutErr :: _ => (.failed .popTimeout, [])
    | .popped w :: rest =>
      if w.state = .ready then (.got w, [])
      else if w.state = .working then
        ((takeLoop fuel (rest ++ [.popped w])).1,
          .pushContainer w.pid :: (takeLoop fuel (rest ++ [.popped w])).2)
      else if w.state ∈ badStates then
        ((takeLoop fuel rest).1, .killW w.pid :: (takeLoop fuel rest).2)
      else
        takeLoop fuel rest

/-- worker_watcher.go Take: first Pop; typed error on failure; fast path
returns a Ready worker; otherwise the first popped worker is killed
unconditionally and the slow-path loop runs on the remaining stream. -/
def take (fuel : Nat) (items : List PopItem) : TakeOut × List Eff :=
  match items with
  | [] => (.failed .popTimeout, [])
  | .stoppedErr :: _ => (.failed .watcherStopped, [])
  | .timeoutErr :: _ => (.failed .popTimeout, [])
  | .popped w :: rest =>
    if w.state = .ready then (.got w, [])
    else ((takeLoop fuel rest).1, .killW w.pid :: (takeLoop fuel rest).2)

lemma takeLoop_got_ready (fuel : Nat) :
    ∀ items w, (takeLoop fuel items).1 = .got w → w.state = .ready := by
  induction fuel with
  | zero => intro items w h; simp [takeLoop] at h
  | succ n ih =>
    intro items w h
    match items with
    | [] => simp [takeLoop] at h
    | .stoppedErr :: rest => simp [takeLoop] at h
    | .timeoutErr :: rest => simp [takeLoop] at h
    | .popped w' :: rest =>
      simp only [takeLoop] at h
      by_cases h1 : w'.state = .ready
      · rw [if_pos h1] at h
        simp at h
        exact h ▸ h1
      · rw [if_neg h1] at h
        by_cases h2 : w'.state = .working
        · rw [if_pos h2] at h
          exact ih _ _ h
        · rw [if_neg h2] at h
          by_cases h3 : w'.state ∈ badStates
          · rw [if_pos h3] at h
            exact ih _ _ h
          · rw [if_neg h3] at h
            exact ih _ _ h

lemma take_got_ready (fuel : Nat) (items : List PopItem) (w : Worker)
    (h : (take fuel items).1 = .got w) : w.state = .ready := by
  match items with
  | [] => simp [take] at h
  | .stoppedErr :: rest => simp [take] at h
  | .timeoutErr :: rest => simp [take] at h
  | .popped w' :: rest =>
    simp only [take] at h
    by_cases h1 : w'.state = .ready
    · rw [if_pos h1] at h
      simp at h
      exact h ▸ h1
    · rw [if_neg h1] at h
      exact takeLoop_got_ready fuel _ _ h

/-- C4: every worker Take returns successfully is in the Ready state; no
worker in one of the enumerated wrong states is ever returned; in the
slow-path loop a popped Working worker is pushed back into the container
unchanged and skipped, and a popped worker in an enumerated wrong state is
killed; a Pop yielding WatcherStopped or a deadline expiry is returned as
the corresponding typed error, both on the first Pop and inside the loop. -/
theorem take_ready_and_dispositions :
    (∀ fuel items w, (take fuel items).1 = .got w → w.state = .ready) ∧
    (∀ fuel items w, w.state ∈ badStates → (take fuel items).1 ≠ .got w) ∧
    (∀ fuel w rest, w.state = .working →
      takeLoop (fuel + 1) (.popped w :: rest)
        = ((takeLoop fuel (rest ++ [.popped w])).1,
            .pushContainer w.pid :: (takeLoop fuel (rest ++ [.popped w])).2)) ∧
    (∀ fuel w rest, w.state ∈ badStates →
      takeLoop (fuel + 1) (.popped w :: rest)
        = ((takeLoop fuel rest).1, .killW w.pid :: (takeLoop fuel rest).2)) ∧
    (∀ fuel rest,
      take fuel (.stoppedErr :: rest) = (.failed .watcherStopped, []) ∧
      take fuel (.timeoutErr :: rest) = (.failed .popTimeout, []) ∧
      takeLoop (fuel + 1) (.stoppedErr :: rest) = (.failed .watcherStopped, []) ∧
      takeLoop (fuel + 1) (.timeoutErr :: rest) = (.failed .popTimeout, [])) := by
  refine ⟨take_got_ready, ?_, ?_, ?_, ?_⟩
  · intro fuel items w hw hgot
    have hr := take_got_ready fuel items w hgot
    rw [hr] at hw
    simp [badStates] at hw
  · intro fuel w rest hw
    simp only [takeLoop]
    rw [if_neg (by simp [hw]), if_pos hw]
  · intro fuel w rest hw
    simp [badStates] at hw
    rcases hw with h | h | h | h | h | h | h <;>
      simp [takeLoop, h, badStates]
  · intro fuel rest
    exact ⟨rfl, rfl, rfl, rfl⟩

/-- Witness for C4: concrete instances of each guarded conjunct — a Ready
worker is returned as taken; an Invalid worker is never the result; a
Working worker is pushed back; an Invalid worker in the loop is killed. -/
theorem take_ready_and_dispositions_witness :
    (⟨1, .ready, 0⟩ : Worker).state = .ready ∧
    (take 1 [.popped ⟨3, .invalid, 0⟩]).1 ≠ .got ⟨3, .invalid, 0⟩ ∧
    takeLoop 1 [.popped ⟨2, .working, 0⟩]
      = ((takeLoop 0 [.popped ⟨2, .working, 0⟩]).1,
          .pushContainer 2 :: (takeLoop 0 [.popped ⟨2, .working, 0⟩]).2) ∧
    takeLoop 1 [.popped ⟨3, .invalid, 0⟩]
      = ((takeLoop 0 []).1, .killW 3 :: (takeLoop 0 []).2) ∧
    take 4 [.stoppedErr] = (.failed .watcherStopped, []) :=
  ⟨take_ready_and_dispositions.1 1 [.popped ⟨1, .ready, 0⟩] ⟨1, .ready, 0⟩
      (by decide),
   take_ready_and_dispositions.2.1 1 [.popped ⟨3, .invalid, 0⟩]
      ⟨3, .invalid, 0⟩ (by decide),
   take_ready_and_dispositions.2.2.1 0 ⟨2, .working, 0⟩ [] rfl,
   take_ready_and_dispositions.2.2.2.1 0 ⟨3, .invalid, 0⟩ [] (by decide),
   (take_ready_and_dispositions.2.2.2.2 4 []).1⟩

/-! ### Watcher.Allocate -/

/-- The watcher's mutable fields threaded as state: the atomic uint64
numWorkers target and the cohort slice. -/
structure WatcherSt where
  numWorkers : Nat
  workers : List Worker
deriving DecidableEq, Repr

/-- The atomic AddUint64 with the all-ones mask: a wrap-around uint64
decrement by one. -/
def decUint64 (n : Nat) : Nat :=
  (n + (2 ^ 64 - 1)) % 2 ^ 64

/-- Result of Allocate. -/
inductive AllocRes
  | allocated (w : Worker)
  | allocFailed
deriving DecidableEq, Repr

/-- The shared tail of Allocate after a successful allocator call (the
done label): register a wait task for the new worker, append it to the
cohort slice, and Release it into the container. -/
def allocDone (w : Worker) (st : WatcherSt) : WatcherSt × List Eff :=
  ({ st with workers := st.workers ++ [w] },
    .addToWatch w.pid :: .appendCohort w.pid :: wwRelease w)

/-- worker_watcher.go Allocate retry loop: one allocator call per 500 ms
tick, scripted by `attempts`; when the budget of ticks before the
allocate-timeout fires is exhausted, the numWorkers target is decremented
(uint64 wrap-around) and the allocation fails terminally.  A missing
script entry is a failing attempt. -/
def allocRetry (budget : Nat) (attempts : List (Option Worker)) (st : WatcherSt) :
    AllocRes × WatcherSt × List Eff :=
  match budget with
  | 0 => (.allocFailed, { st with numWorkers := decUint64 st.numWorkers },
      [.decTarget])
  | b + 1 =>
    match attempts with
    | some w :: _ =>
        (.allocated w, (allocDone w st).1, (allocDone w st).2)
    | none :: rest =>
        ((allocRetry b rest st).1, (allocRetry b rest st).2.1,
          .event .workerError :: (allocRetry b rest st).2.2)
    | [] =>
        ((allocRetry b [] st).1, (allocRetry b [] st).2.1,
          .event .workerError :: (allocRetry b [] st).2.2)

/-- worker_watcher.go Allocate: first allocator call; on success run the
done tail; on failure push a worker-error event, and if the allocate
timeout is zero fail terminally at once (no decrement), otherwise run the
retry loop with one tick per 500 ms of the timeout. -/
def wwAllocate (timeoutMs : Nat) (attempts : List (Option Worker)) (st : WatcherSt) :
    AllocRes × WatcherSt × List Eff :=
  match attempts with
  | some w :: _ => (.allocated w, (allocDone w st).1, (allocDone w st).2)
  | _ =>
    if timeoutMs = 0 then (.allocFailed, st, [.event .workerError])
    else
      ((allocRetry (timeoutMs / 500) attempts.tail st).1,
        (allocRetry (timeoutMs / 500) attempts.tail st).2.1,
        .event .workerError :: (allocRetry (timeoutMs / 500) attempts.tail st).2.2)

lemma allocRetry_failed_state (b : Nat) :
    ∀ attempts st, (allocRetry b attempts st).1 = .allocFailed →
      (allocRetry b attempts st).2.1
          = { st with numWorkers := decUint64 st.numWorkers } ∧
      Eff.decTarget ∈ (allocRetry b attempts st).2.2 := by
  induction b with
  | zero => intro attempts st _; exact ⟨rfl, by simp [allocRetry]⟩
  | succ n ih =>
    intro attempts st h
    match attempts with
    | [] =>
      simp only [allocRetry] at h ⊢
      rcases ih [] st h with ⟨h1, h2⟩
      exact ⟨h1, by simp [h2]⟩
    | some w :: rest => simp [allocRetry] at h
    | none :: rest =>
      simp only [allocRetry] at h ⊢
      rcases ih rest st h with ⟨h1, h2⟩
      exact ⟨h1, by simp [h2]⟩

lemma allocRetry_all_none (b : Nat) :
    ∀ attempts st, (∀ a ∈ attempts.take b, a = none) →
      (allocRetry b attempts st).1 = .allocFailed ∧
      List.count (Eff.event .workerError) (allocRetry b attempts st).2.2 = b := by
  induction b with
  | zero => intro attempts st _; exact ⟨rfl, by simp [allocRetry]⟩
  | succ n ih =>
    intro attempts st h
    match attempts with
    | [] =>
      simp only [allocRetry]
      rcases ih [] st (by simp) with ⟨h1, h2⟩
      exact ⟨h1, by simp [List.count_cons, h2]⟩
    | some w :: rest =>
      exact absurd (h (some w) (by simp)) (by simp)
    | none :: rest =>
      simp only [allocRetry]
      have hr : ∀ a ∈ rest.take n, a = none := by
        intro a ha
        exact h a (by simp [ha])
      rcases ih rest st hr with ⟨h1, h2⟩
      exact ⟨h1, by simp [List.count_cons, h2]⟩

lemma allocRetry_success (b : Nat) :
    ∀ attempts st w, (allocRetry b attempts st).1 = .allocated w →
      (allocRetry b attempts st).2.1.workers = st.workers ++ [w] ∧
      Eff.addToWatch w.pid ∈ (allocRetry b attempts st).2.2 ∧
      Eff.releaseCall w.pid ∈ (allocRetry b attempts st).2.2 := by
  induction b with
  | zero => intro attempts st w h; simp [allocRetry] at h
  | succ n ih =>
    intro attempts st w h
    match attempts with
    | [] =>
      simp only [allocRetry] at h ⊢
      rcases ih [] st w h with ⟨h1, h2, h3⟩
      exact ⟨h1, by simp [h2], by simp [h3]⟩
    | some w' :: rest =>
      simp only [allocRetry] at h ⊢
      have hw : w' = w := by
        simpa using h
      subst hw
      exact ⟨rfl, by simp [allocDone], by simp [allocDone, wwRelease]⟩
    | none :: rest =>
      simp only [allocRetry] at h ⊢
      rcases ih rest st w h with ⟨h1, h2, h3⟩
      exact ⟨h1, by simp [h2], by simp [h3]⟩

/-- Counterexample for C5 as stated: with allocate_timeout = 0 and a
failing allocator, Allocate fails terminally (WorkerAllocate) yet the
numWorkers target is NOT decremented (the decrement sits only in the
timeout branch of the retry loop). -/
theorem wwAllocate_no_decrement_on_zero_timeout :
    (wwAllocate 0 [none] ⟨5, []⟩).1 = .allocFailed ∧
    (wwAllocate 0 [none] ⟨5, []⟩).2.1.numWorkers = 5 ∧
    Eff.decTarget ∉ (wwAllocate 0 [none] ⟨5, []⟩).2.2 := by
  decide

/-- C5 amended: a terminal Allocate failure decrements the numWorkers
target (as a wrap-around uint64 decrement) exactly when allocate_timeout
is positive — with a zero timeout the failure is immediate and the target
is untouched; with a positive timeout the failure occurs only after the
whole retry budget of one allocator call per 500 ms tick is consumed (one
worker-error event per failed call, plus one for the first); on any
successful allocation the worker is appended to the cohort, a wait task
is registered for it, and it is Released into the container. -/
theorem wwAllocate_disposition (t : Nat) (attempts : List (Option Worker))
    (st : WatcherSt) :
    ((wwAllocate t attempts st).1 = .allocFailed →
      (t = 0 → (wwAllocate t attempts st).2.1 = st ∧
        Eff.decTarget ∉ (wwAllocate t attempts st).2.2) ∧
      (t ≠ 0 →
        (wwAllocate t attempts st).2.1
            = { st with numWorkers := decUint64 st.numWorkers } ∧
        Eff.decTarget ∈ (wwAllocate t attempts st).2.2)) ∧
    (t ≠ 0 → attempts.headD none = none →
      (∀ a ∈ attempts.tail.take (t / 500), a = none) →
      (wwAllocate t attempts st).1 = .allocFailed ∧
      List.count (Eff.event .workerError) (wwAllocate t attempts st).2.2
          = 1 + t / 500) ∧
    (∀ w, (wwAllocate t attempts st).1 = .allocated w →
      (wwAllocate t attempts st).2.1.workers = st.workers ++ [w] ∧
      Eff.addToWatch w.pid ∈ (wwAllocate t attempts st).2.2 ∧
      Eff.releaseCall w.pid ∈ (wwAllocate t attempts st).2.2) := by
  match attempts with
  | some w :: rest =>
    refine ⟨?_, ?_, ?_⟩
    · intro h
      simp [wwAllocate] at h
    · intro _ h
      simp at h
    · intro w' h
      simp only [wwAllocate] at h ⊢
      have hw : w = w' := by simpa using h
      subst hw
      exact ⟨rfl, by simp [allocDone], by simp [allocDone, wwRelease]⟩
  | [] =>
    by_cases ht : t = 0
    · subst ht
      refine ⟨?_, ?_, ?_⟩
      · intro _
        exact ⟨fun _ => ⟨rfl, by simp [wwAllocate]⟩, fun h => absurd rfl h⟩
      · intro h; exact absurd rfl h
      · intro w h; simp [wwAllocate] at h
    · refine ⟨?_, ?_, ?_⟩
      · intro _
        refine ⟨fun h0 => absurd h0 ht, fun _ => ?_⟩
        simp only [wwAllocate, if_neg ht]
        have hfail := (allocRetry_all_none (t / 500) [] st (by simp)).1
        rcases allocRetry_failed_state (t / 500) [] st hfail with ⟨h1, h2⟩
        exact ⟨h1, by simp [h2]⟩
      · intro _ _ _
        simp only [wwAllocate, if_neg ht]
        rcases allocRetry_all_none (t / 500) [] st (by simp) with ⟨h1, h2⟩
        exact ⟨h1, by simp [List.count_cons, h2, Nat.add_comm]⟩
      · intro w h
        simp only [wwAllocate, if_neg ht] at h ⊢
        rcases allocRetry_success (t / 500) [] st w h with ⟨h1, h2, h3⟩
        exact ⟨h1, by simp [h2], by simp [h3]⟩
  | none :: rest =>
    by_cases ht : t = 0
    · subst ht
      refine ⟨?_, ?_, ?_⟩
      · intro _
        exact ⟨fun _ => ⟨rfl, by simp [wwAllocate]⟩, fun h => absurd rfl h⟩
      · intro h; exact absurd rfl h
      · intro w h; simp [wwAllocate] at h
    · refine ⟨?_, ?_, ?_⟩
      · intro hfail
        refine ⟨fun h0 => absurd h0 ht, fun _ => ?_⟩
        simp only [wwAllocate, if_neg ht] at hfail ⊢
        rcases allocRetry_failed_state (t / 500) rest st hfail with ⟨h1, h2⟩
        exact ⟨h1, by simp [h2]⟩
      · intro _ _ hall
        simp only [List.tail_cons] at hall
        simp only [wwAllocate, if_neg ht]
        rcases allocRetry_all_none (t / 500) rest st hall with ⟨h1, h2⟩
        exact ⟨h1, by simp [List.count_cons, h2, Nat.add_comm]⟩
      · intro w h
        simp only [wwAllocate, if_neg ht] at h ⊢
        rcases allocRetry_success (t / 500) rest st w h with ⟨h1, h2, h3⟩
        exact ⟨h1, by simp [h2], by simp [h3]⟩

/-- Witness for C5 (amended): a zero-timeout failure leaves the target at
5; a 1000 ms timeout with three failing attempts decrements it to 4 after
the full budget of 2 retries (3 worker-error events); a successful retry
appends pid 8 to the cohort. -/
theorem wwAllocate_disposition_witness :
    ((wwAllocate 0 [none] ⟨5, []⟩).2.1 = ⟨5, []⟩ ∧
      Eff.decTarget ∉ (wwAllocate 0 [none] ⟨5, []⟩).2.2) ∧
    ((wwAllocate 1000 [none, none, none] ⟨5, []⟩).1 = .allocFailed ∧
      List.count (Eff.event .workerError)
        (wwAllocate 1000 [none, none, none] ⟨5, []⟩).2.2 = 1 + 1000 / 500) ∧
    ((wwAllocate 1000 [none, some ⟨8, .ready, 0⟩] ⟨5, []⟩).2.1.workers
        = [] ++ [⟨8, .ready, 0⟩]) :=
  ⟨((wwAllocate_disposition 0 [none] ⟨5, []⟩).1 (by decide)).1 rfl,
   (wwAllocate_disposition 1000 [none, none, none] ⟨5, []⟩).2.1
      (by decide) (by decide) (by decide),
   ((wwAllocate_disposition 1000 [none, some ⟨8, .ready, 0⟩] ⟨5, []⟩).2.2
      ⟨8, .ready, 0⟩ (by decide)).1⟩

/-! ### Watcher.Destroy -/

/-- The context argument Destroy receives (and ignores): only its
cancellation flag could be observed. -/
structure GoCtx where
  cancelled : Bool
deriving DecidableEq, Repr

/-- One 100 ms poll observation inside Destroy: the numWorkers target and
the cohort slice read under the lock at that tick. -/
structure CohortObs where
  target : Nat
  members : List Worker
deriving DecidableEq, Repr

/-- The converged arm of Destroy: set every cohort member's state to
Destroyed and Kill it, in cohort order. -/
def destructAll (ws : List Worker) : List Eff :=
  ws.flatMap (fun w => [.setState w.pid .destroyed, .killW w.pid])

/-- worker_watcher.go Destroy poll loop, driven by the scripted
observations: while the target differs from the cohort length, do nothing
and keep polling; at the first converged observation destroy every member
and return (the Bool records whether the loop returned). -/
def destroyLoop : List CohortObs → List Eff × Bool
  | [] => ([], false)
  | o :: rest =>
    if o.target ≠ o.members.length then destroyLoop rest
    else (destructAll o.members, true)

/-- worker_watcher.go Destroy: mark the container destroyed first, then
run the poll loop; the ctx argument is bound to the blank identifier. -/
def wwDestroy (_ctx : GoCtx) (obs : List CohortObs) : List Eff × Bool :=
  (.containerDestroy :: (destroyLoop obs).1, (destroyLoop obs).2)

lemma destroyLoop_all_unconverged :
    ∀ obs : List CohortObs, (∀ o ∈ obs, o.target ≠ o.members.length) →
      destroyLoop obs = ([], false) := by
  intro obs
  induction obs with
  | nil => intro _; rfl
  | cons o rest ih =>
    intro h
    simp only [destroyLoop, if_pos (h o (by simp))]
    exact ih fun o' ho' => h o' (by simp [ho'])

lemma destroyLoop_first_converged :
    ∀ (pre : List CohortObs) (o : CohortObs) (post : List CohortObs),
      (∀ o' ∈ pre, o'.target ≠ o'.members.length) →
      o.target = o.members.length →
      destroyLoop (pre ++ o :: post) = (destructAll o.members, true) := by
  intro pre
  induction pre with
  | nil =>
    intro o post _ ho
    simp only [List.nil_append, destroyLoop, if_neg (not_not_intro ho)]
  | cons p pre' ih =>
    intro o post hpre ho
    simp only [List.cons_append, destroyLoop, if_pos (hpre p (by simp))]
    exact ih o post (fun o' ho' => hpre o' (by simp [ho'])) ho

/-- C6: Destroy's behaviour never depends on its ctx argument; its first
effect marks the container destroyed; while every polled observation has
a cohort length differing from the numWorkers target it performs no state
write and no Kill; at the first converged observation it sets every
cohort member's state to Destroyed and Kills each one. -/
theorem destroy_waits_for_convergence :
    (∀ c₁ c₂ obs, wwDestroy c₁ obs = wwDestroy c₂ obs) ∧
    (∀ c obs, (wwDestroy c obs).1.head? = some .containerDestroy) ∧
    (∀ c obs, (∀ o ∈ obs, o.target ≠ o.members.length) →
      (wwDestroy c obs).1 = [.containerDestroy] ∧ (wwDestroy c obs).2 = false) ∧
    (∀ c pre o post, (∀ o' ∈ pre, o'.target ≠ o'.members.length) →
      o.target = o.members.length →
      (wwDestroy c (pre ++ o :: post)).1
          = .containerDestroy :: destructAll o.members ∧
      (wwDestroy c (pre ++ o :: post)).2 = true) ∧
    (∀ (ws : List Worker) (w : Worker), w ∈ ws →
      Eff.setState w.pid .destroyed ∈ destructAll ws ∧
      Eff.killW w.pid ∈ destructAll ws) := by
  refine ⟨fun _ _ _ => rfl, fun _ _ => rfl, ?_, ?_, ?_⟩
  · intro c obs h
    rw [wwDestroy, destroyLoop_all_unconverged obs h]
    exact ⟨rfl, rfl⟩
  · intro c pre o post hpre ho
    rw [wwDestroy, destroyLoop_first_converged pre o post hpre ho]
    exact ⟨rfl, rfl⟩
  · intro ws w hw
    constructor
    · simp only [destructAll, List.mem_flatMap]
      exact ⟨w, hw, by simp⟩
    · simp only [destructAll, List.mem_flatMap]
      exact ⟨w, hw, by simp⟩

/-- Witness for C6: an unconverged observation (target 2, empty cohort)
produces no destruction; after it, a converged observation with one
member destroys and kills exactly that member. -/
theorem destroy_waits_for_convergence_witness :
    (wwDestroy ⟨true⟩ [⟨2, []⟩]).1 = [.containerDestroy] ∧
    (wwDestroy ⟨true⟩ [⟨2, []⟩, ⟨1, [⟨7, .working, 0⟩]⟩]).1
        = .containerDestroy :: destructAll [⟨7, .working, 0⟩] ∧
    Eff.killW 7 ∈ destructAll [⟨7, .working, 0⟩] :=
  ⟨(destroy_waits_for_convergence.2.2.1 ⟨true⟩ [⟨2, []⟩] (by decide)).1,
   (destroy_waits_for_convergence.2.2.2.1 ⟨true⟩ [⟨2, []⟩]
      ⟨1, [⟨7, .working, 0⟩]⟩ [] (by decide) (by decide)).1,
   (destroy_waits_for_convergence.2.2.2.2 [⟨7, .working, 0⟩]
      ⟨7, .working, 0⟩ (by decide)).2⟩

/-! ### Debug path -/

/-- static_pool.go Initialize, the debug clause: when cfg.Debug is set,
NumWorkers is forced to 0 and MaxJobs to 1. -/
def initializeCfg (cfg : PoolCfg) : PoolCfg :=
  if cfg.debug then { cfg with numWorkers := 0, maxJobs := 1 } else cfg

/-- static_pool.go execDebug: allocate a brand-new worker; on a successful
Exec set its state to Destroyed and Kill it, returning the reply; an Exec
error is returned at once, without touching the worker. -/
def execDebug (alloc : Option Worker) (out : ExecOutcome) :
    ExecResult × List Eff :=
  match alloc with
  | none => (.allocErr, [])
  | some w =>
    match out with
    | .failure k => (.execErr k, [.allocNew w.pid, .workerExec w.pid])
    | .reply rsp =>
        (.ok rsp, [.allocNew w.pid, .workerExec w.pid,
          .setState w.pid .destroyed, .killW w.pid])

/-- static_pool.go execDebugWithTTL: allocate a brand-new worker, run
ExecWithTTL, then Stop the worker (on success and failure alike) and
return the exec result. -/
def execDebugWithTTL (alloc : Option Worker) (out : ExecOutcome) :
    ExecResult × List Eff :=
  match alloc with
  | none => (.allocErr, [])
  | some w =>
    match out with
    | .failure k =>
        (.execErr k, [.allocNew w.pid, .workerExec w.pid, .stopW w.pid])
    | .reply rsp =>
        (.ok rsp, [.allocNew w.pid, .workerExec w.pid, .stopW w.pid])

/-- Counterexample for C7 as stated: a successful debug ExecWithTTL Stops
the worker — it never Kills it and never marks it Destroyed. -/
theorem execDebugWithTTL_stops_not_kills :
    Eff.stopW 1
        ∈ (execDebugWithTTL (some ⟨1, .ready, 0⟩) (.reply ⟨[], [2]⟩)).2 ∧
    Eff.killW 1
        ∉ (execDebugWithTTL (some ⟨1, .ready, 0⟩) (.reply ⟨[], [2]⟩)).2 ∧
    Eff.setState 1 .destroyed
        ∉ (execDebugWithTTL (some ⟨1, .ready, 0⟩) (.reply ⟨[], [2]⟩)).2 := by
  decide

/-- C7 amended: when debug is set, Initialize forces numWorkers to 0 and
maxJobs to 1; a debug Exec allocates a brand-new worker, runs the payload
on it, then marks it Destroyed and Kills it; a debug ExecWithTTL
allocates a brand-new worker, runs the payload, then Stops it (not Kill);
neither path ever Releases the worker or pushes it into the container, so
no worker is pooled or reused across requests in debug mode. -/
theorem debug_path_fresh_worker (cfg : PoolCfg) (w : Worker) (rsp : Payload)
    (k : ErrKind) :
    (cfg.debug = true →
      (initializeCfg cfg).numWorkers = 0 ∧ (initializeCfg cfg).maxJobs = 1) ∧
    (execDebug (some w) (.reply rsp)
      = (.ok rsp, [.allocNew w.pid, .workerExec w.pid,
          .setState w.pid .destroyed, .killW w.pid])) ∧
    (execDebugWithTTL (some w) (.reply rsp)
      = (.ok rsp, [.allocNew w.pid, .workerExec w.pid, .stopW w.pid])) ∧
    (execDebugWithTTL (some w) (.failure k)
      = (.execErr k, [.allocNew w.pid, .workerExec w.pid, .stopW w.pid])) ∧
    (∀ q, Eff.releaseCall q ∉ (execDebug (some w) (.reply rsp)).2 ∧
      Eff.pushContainer q ∉ (execDebug (some w) (.reply rsp)).2 ∧
      Eff.releaseCall q ∉ (execDebugWithTTL (some w) (.reply rsp)).2 ∧
      Eff.pushContainer q ∉ (execDebugWithTTL (some w) (.reply rsp)).2) := by
  refine ⟨?_, rfl, rfl, rfl, ?_⟩
  · intro h
    simp [initializeCfg, h]
  · intro q
    refine ⟨?_, ?_, ?_, ?_⟩ <;> simp [execDebug, execDebugWithTTL]

/-- Witness for C7 (amended): the debug clause of Initialize at a
concrete debug configuration. -/
theorem debug_path_fresh_worker_witness :
    (initializeCfg ⟨true, 4, 9⟩).numWorkers = 0 ∧
    (initializeCfg ⟨true, 4, 9⟩).maxJobs = 1 :=
  (debug_path_fresh_worker ⟨true, 4, 9⟩ ⟨1, .ready, 0⟩ ⟨[], []⟩ .other).1 rfl

/-! ### Watcher.Remove and the wait task -/

/-- worker_watcher.go Remove: scan the cohort; at the first entry whose
Pid equals the given worker's Pid, splice it out, Kill the given worker
and return; no match leaves the cohort untouched. -/
def removeW (wb : Worker) : List Worker → List Worker × List Eff
  | [] => ([], [])
  | x :: xs =>
    if x.pid = wb.pid then (xs, [.killW wb.pid])
    else (x :: (removeW wb xs).1, (removeW wb xs).2)

/-- C9: Remove removes at most one cohort entry per call — the first
entry whose Pid equals the given worker's Pid — kills exactly that one
worker, and keeps every other entry in its original relative order; with
no matching Pid the cohort is unchanged and Kill is never invoked. -/
theorem remove_first_match_only (wb : Worker) :
    (∀ ws : List Worker, (∀ x ∈ ws, x.pid ≠ wb.pid) →
      removeW wb ws = (ws, [])) ∧
    (∀ (pre : List Worker) (m : Worker) (post : List Worker),
      (∀ x ∈ pre, x.pid ≠ wb.pid) → m.pid = wb.pid →
      removeW wb (pre ++ m :: post) = (pre ++ post, [.killW wb.pid])) := by
  constructor
  · intro ws
    induction ws with
    | nil => intro _; rfl
    | cons x xs ih =>
      intro h
      simp only [removeW, if_neg (h x (by simp))]
      rw [ih fun x' hx' => h x' (by simp [hx'])]
  · intro pre
    induction pre with
    | nil =>
      intro m post _ hm
      simp only [List.nil_append, removeW, if_pos hm]
    | cons p pre' ih =>
      intro m post hpre hm
      simp only [List.cons_append, removeW, if_neg (hpre p (by simp)),
        List.append_eq]
      rw [ih m post (fun x hx => hpre x (by simp [hx])) hm]

/-- Witness for C9: no pid matches — cohort unchanged and no Kill; a
duplicate pid 2 — only the first pid-2 entry is spliced out, the later
one stays, and exactly one Kill of the given worker is emitted. -/
theorem remove_first_match_only_witness :
    removeW ⟨5, .ready, 0⟩ [⟨1, .ready, 0⟩, ⟨2, .working, 0⟩]
      = ([⟨1, .ready, 0⟩, ⟨2, .working, 0⟩], []) ∧
    removeW ⟨2, .stopped, 1⟩
        [⟨1, .ready, 0⟩, ⟨2, .working, 5⟩, ⟨2, .ready, 7⟩, ⟨3, .ready, 0⟩]
      = ([⟨1, .ready, 0⟩, ⟨2, .ready, 7⟩, ⟨3, .ready, 0⟩], [.killW 2]) :=
  ⟨(remove_first_match_only ⟨5, .ready, 0⟩).1
      [⟨1, .ready, 0⟩, ⟨2, .working, 0⟩] (by decide),
   (remove_first_match_only ⟨2, .stopped, 1⟩).2
      [⟨1, .ready, 0⟩] ⟨2, .working, 5⟩ [⟨2, .ready, 7⟩, ⟨3, .ready, 0⟩]
      (by decide) (by decide)⟩

/-- Outcome of a wait task: a normal return, or the process-terminating
panic (which in the source carries a WorkerAllocate error). -/
inductive WaitOutcome
  | normalExit
  | panicked
deriving DecidableEq, Repr

/-- The tail of the wait task after the Destroyed check: set the state to
Stopped, run Allocate, and on a terminal allocation failure panic exactly
when the cohort is empty and the numWorkers target is zero. -/
def waitAllocStep (w : Worker) (a : AllocRes × WatcherSt × List Eff) :
    WatcherSt × List Eff × WaitOutcome :=
  match a.1 with
  | .allocated _ =>
      (a.2.1, Eff.setState w.pid .stopped :: a.2.2, .normalExit)
  | .allocFailed =>
      (a.2.1,
        Eff.setState w.pid .stopped :: a.2.2 ++ [.event .workerProcessExit],
        if a.2.1.workers.length = 0 ∧ a.2.1.numWorkers = 0 then .panicked
        else .normalExit)

/-- worker_watcher.go wait: after the worker's Wait returns (an exit error
only adds a worker-error event), Remove it from the cohort; if its state
is Destroyed, push the destruct event and return; otherwise set the state
to Stopped, call Allocate, and on terminal allocation failure with an
empty cohort and a zero numWorkers target, panic. -/
def wwWait (t : Nat) (attempts : List (Option Worker)) (we : Bool)
    (w : Worker) (st : WatcherSt) : WatcherSt × List Eff × WaitOutcome :=
  if w.state = .destroyed then
    ({ st with workers := (removeW w st.workers).1 },
      (if we then [Eff.event .workerError] else [])
        ++ (removeW w st.workers).2 ++ [.event .workerDestruct],
      .normalExit)
  else
    ((waitAllocStep w (wwAllocate t attempts
        { st with workers := (removeW w st.workers).1 })).1,
      (if we then [Eff.event .workerError] else [])
        ++ (removeW w st.workers).2
        ++ (waitAllocStep w (wwAllocate t attempts
            { st with workers := (removeW w st.workers).1 })).2.1,
      (waitAllocStep w (wwAllocate t attempts
          { st with workers := (removeW w st.workers).1 })).2.2)

/-- C8: the wait task removes the exited worker from the cohort; when its
state is Destroyed it emits EventWorkerDestruct and does nothing else;
otherwise it sets the state to Stopped and calls Allocate on the cohort
with the worker removed, and it panics exactly when that Allocate fails
terminally while the resulting cohort is empty and the numWorkers target
is zero. -/
theorem wait_task_replaces_worker (t : Nat) (attempts : List (Option Worker))
    (we : Bool) (w : Worker) (st : WatcherSt) :
    (w.state = .destroyed →
      wwWait t attempts we w st
        = ({ st with workers := (removeW w st.workers).1 },
            (if we then [Eff.event .workerError] else [])
              ++ (removeW w st.workers).2 ++ [.event .workerDestruct],
            .normalExit)) ∧
    (w.state ≠ .destroyed →
      Eff.setState w.pid .stopped ∈ (wwWait t attempts we w st).2.1 ∧
      ((wwWait t attempts we w st).2.2 = .panicked ↔
        (wwAllocate t attempts
            { st with workers := (removeW w st.workers).1 }).1 = .allocFailed ∧
        (wwAllocate t attempts
            { st with workers := (removeW w st.workers).1 }).2.1.workers.length
              = 0 ∧
        (wwAllocate t attempts
            { st with workers := (removeW w st.workers).1 }).2.1.numWorkers
              = 0)) := by
  constructor
  · intro h
    simp only [wwWait, if_pos h]
  · intro h
    simp only [wwWait, if_neg h]
    constructor
    · cases hr : (wwAllocate t attempts
          { st with workers := (removeW w st.workers).1 }).1 with
      | allocated w' => simp [waitAllocStep, hr]
      | allocFailed => simp [waitAllocStep, hr]
    · cases hr : (wwAllocate t attempts
          { st with workers := (removeW w st.workers).1 }).1 with
      | allocated w' => simp [waitAllocStep, hr]
      | allocFailed =>
        by_cases hc : (wwAllocate t attempts
            { st with workers := (removeW w st.workers).1 }).2.1.workers.length
              = 0 ∧
          (wwAllocate t attempts
            { st with workers := (removeW w st.workers).1 }).2.1.numWorkers = 0
        · simp [waitAllocStep, hr, hc]
        · simp only [waitAllocStep, hr, if_neg hc]
          constructor
          · intro hx
            simp at hx
          · intro hx
            exact absurd ⟨hx.2.1, hx.2.2⟩ hc

/-- Witness for C8: a Destroyed worker only yields the destruct event; a
non-Destroyed worker whose replacement allocation fails with an empty
cohort and a zero target makes the wait task panic. -/
theorem wait_task_replaces_worker_witness :
    wwWait 0 [] false ⟨1, .destroyed, 0⟩ ⟨1, [⟨1, .destroyed, 0⟩]⟩
      = (⟨1, []⟩, [.killW 1, .event .workerDestruct], .normalExit) ∧
    (wwWait 0 [none] false ⟨1, .errored, 0⟩ ⟨0, [⟨1, .errored, 0⟩]⟩).2.2
      = .panicked := by
  constructor
  · rw [(wait_task_replaces_worker 0 [] false ⟨1, .destroyed, 0⟩
      ⟨1, [⟨1, .destroyed, 0⟩]⟩).1 (by decide)]
    decide
  · exact ((wait_task_replaces_worker 0 [none] false ⟨1, .errored, 0⟩
      ⟨0, [⟨1, .errored, 0⟩]⟩).2 (by decide)).2.mpr
      ⟨by decide, by decide, by decide⟩

end RoadRunner
